import Mathlib

unseal Rat.add Rat.mul Rat.sub Rat.inv

/-!
Shallow embedding of the momentum scalping engine in src/options_scalper.py.
Prices and money amounts are modelled as rationals; timestamps as rationals
counting seconds. Python dictionaries keyed by order id are modelled as
association lists with unique keys (setOrder replaces, removeOrder filters).
-/

namespace Scalper

/-- One entry of the price history deque: a dict with keys time and price. -/
structure PricePoint where
  time : Rat
  price : Rat
deriving DecidableEq, Repr

/-- One entry of the active or filled order dicts. -/
structure OrderRec where
  action : String
  quantity : Nat
  status : String
  filled : Rat
  avgPrice : Rat
deriving DecidableEq, Repr

/-- Mutable fields of the OptionsScalper object that the claims touch. -/
structure BotState where
  current_price : Rat
  bid : Rat
  ask : Rat
  last_price : Rat
  price_history : List PricePoint
  active_orders : List (Nat × OrderRec)
  filled_orders : List (Nat × OrderRec)
  nextOrderId : Nat
  trades_today : Nat
  wins : Nat
  losses : Nat
  total_pnl : Rat
  daily_pnl : Rat
  entry_price : Rat
  highest_price_in_trade : Rat
  lowest_price_in_trade : Rat
deriving DecidableEq, Repr

/-- Dictionary lookup on an association list keyed by order id. -/
def lookupOrder (l : List (Nat × OrderRec)) (k : Nat) : Option OrderRec :=
  match l with
  | [] => none
  | (k2, v) :: rest => if k2 = k then some v else lookupOrder rest k

/-- Dictionary write: replace the value at an existing key, else append. -/
def setOrder (l : List (Nat × OrderRec)) (k : Nat) (v : OrderRec) :
    List (Nat × OrderRec) :=
  match l with
  | [] => [(k, v)]
  | (k2, v2) :: rest =>
      if k2 = k then (k, v) :: rest else (k2, v2) :: setOrder rest k v

/-- Dictionary delete. -/
def removeOrder (l : List (Nat × OrderRec)) (k : Nat) : List (Nat × OrderRec) :=
  l.filter (fun p => p.1 ≠ k)

/-- Append to a deque with maxlen 100: the oldest entry is evicted when full. -/
def pushHistory (h : List PricePoint) (p : PricePoint) : List PricePoint :=
  let h2 := h ++ [p]
  if 100 < h2.length then h2.drop (h2.length - 100) else h2

/-- The tick-type dispatch of tickPrice (lines 127-144): tick types 1, 2, 4
and 9 update bid, ask, last and close respectively; only a Last tick appends to
the price history and unconditionally overwrites the current price. -/
def tickBranch (s : BotState) (now : Rat) (tickType : Int) (price : Rat) :
    BotState :=
  if tickType = 1 then
    { s with bid := price,
             current_price :=
               if s.current_price = 0 then price else s.current_price }
  else if tickType = 2 then
    { s with ask := price,
             current_price :=
               if s.current_price = 0 then price else s.current_price }
  else if tickType = 4 then
    { s with last_price := price, current_price := price,
             price_history := pushHistory s.price_history ⟨now, price⟩ }
  else if tickType = 9 then
    { s with current_price :=
               if s.current_price = 0 then price else s.current_price }
  else s

/-- True when the last history entry is more than one second old, the guard of
line 150 avoiding duplicate synthesized entries. -/
def staleLast (h : List PricePoint) (now : Rat) : Bool :=
  match h.getLast? with
  | some lastPt => decide (1 < now - lastPt.time)
  | none => true

/-- The bid-ask mid synthesis of tickPrice (lines 146-153): when fewer than 5
history points exist and both bid and ask are known, append a mid-price entry
unless the last entry is less than one second old. -/
def tickSynth (s : BotState) (now : Rat) : BotState :=
  if s.price_history.length < 5 ∧ 0 < s.bid ∧ 0 < s.ask then
    if s.price_history.isEmpty || staleLast s.price_history now then
      { s with
          price_history :=
            pushHistory s.price_history ⟨now, (s.bid + s.ask) / 2⟩,
          current_price :=
            if s.current_price = 0 then (s.bid + s.ask) / 2
            else s.current_price }
    else s
  else s

/-- Embedding of OptionsScalper.tickPrice (src/options_scalper.py lines
122-153). Non-positive prices return immediately; otherwise the tick-type
dispatch runs, then the bid-ask mid synthesis on the updated state. -/
def tickPrice (s : BotState) (now : Rat) (tickType : Int) (price : Rat) :
    BotState :=
  if price ≤ 0 then s
  else tickSynth (tickBranch s now tickType price) now

/-- Embedding of OptionsScalper.on_order_filled (lines 192-218). A Buy fill
records the entry price; a Sell fill with a recorded entry settles PnL into the
session counters, using the hard-coded contract multiplier 5. -/
def on_order_filled (s : BotState) (orderId : Nat) (avgPrice : Rat) : BotState :=
  match lookupOrder s.filled_orders orderId with
  | none => s
  | some info =>
      if info.action = "BUY" then
        { s with entry_price := avgPrice,
                 highest_price_in_trade := avgPrice,
                 lowest_price_in_trade := avgPrice }
      else if info.action = "SELL" then
        if 0 < s.entry_price then
          let pnl := (avgPrice - s.entry_price) * (info.quantity : Rat) * 5
          let s := { s with total_pnl := s.total_pnl + pnl,
                            daily_pnl := s.daily_pnl + pnl,
                            trades_today := s.trades_today + 1 }
          let s := if 0 < pnl then { s with wins := s.wins + 1 }
                   else { s with losses := s.losses + 1 }
          { s with entry_price := 0 }
        else s
      else s

/-- Embedding of OptionsScalper.orderStatus (lines 167-180). Known orders get
their status, filled quantity and average price overwritten; a Filled status
moves the record to filled_orders and invokes the fill handler. -/
def orderStatus (s : BotState) (orderId : Nat) (status : String)
    (filledQty : Rat) (avgFillPrice : Rat) : BotState :=
  match lookupOrder s.active_orders orderId with
  | none => s
  | some rec0 =>
      let rec1 : OrderRec :=
        { rec0 with status := status, filled := filledQty,
                    avgPrice := avgFillPrice }
      let s := { s with active_orders := setOrder s.active_orders orderId rec1 }
      if status = "Filled" then
        let s := { s with
                   filled_orders := setOrder s.filled_orders orderId rec1,
                   active_orders := removeOrder s.active_orders orderId }
        on_order_filled s orderId avgFillPrice
      else s

/-- Momentum signal strings returned by detect_momentum. -/
inductive Signal where
  | BULLISH
  | BEARISH
  | REVERSAL_UP
  | REVERSAL_DOWN
  | NEUTRAL
deriving DecidableEq, Repr

/-- Rate of change of a price list, as in (prices[-1] - prices[0]) / prices[0] * 100. -/
def rocOf (prices : List Rat) : Rat :=
  (prices.getLastD 0 - prices.headD 0) / prices.headD 0 * 100

/-- Number of strictly increasing adjacent steps in a price list. -/
def upMoves : List Rat → Nat
  | a :: b :: rest => (if a < b then 1 else 0) + upMoves (b :: rest)
  | _ => 0

/-- The trailing window list(price_history)[-period:] projected to prices. -/
def lastWindow (price_history : List PricePoint) (period : Nat) : List Rat :=
  (price_history.drop (price_history.length - period)).map PricePoint.price

/-- Rate of change of the most recent 5-point sub-window prices[-5:]
of the trailing window, as computed inside detect_momentum. -/
def recent5roc (price_history : List PricePoint) (period : Nat) : Rat :=
  let prices := lastWindow price_history period
  rocOf (prices.drop (prices.length - 5))

/-- Rate of change of the preceding 5-point sub-window prices[-10:-5]
of the trailing window, as computed inside detect_momentum. -/
def older5roc (price_history : List PricePoint) (period : Nat) : Rat :=
  let prices := lastWindow price_history period
  rocOf ((prices.drop (prices.length - 10)).take 5)

/-- Embedding of detect_momentum (lines 271-308). Reversal checks run only
when the trailing window has at least 10 points and take precedence over the
trend-continuation checks. -/
def detect_momentum (price_history : List PricePoint) (period : Nat) : Signal :=
  if price_history.length < period then .NEUTRAL
  else
    let prices := lastWindow price_history period
    let roc := rocOf prices
    let momentum_score : Rat :=
      (upMoves prices : Rat) / ((prices.length : Rat) - 1)
    if 10 ≤ prices.length ∧ older5roc price_history period < -(1/10) ∧
        (2/10 : Rat) < recent5roc price_history period then
      .REVERSAL_UP
    else if 10 ≤ prices.length ∧ (1/10 : Rat) < older5roc price_history period ∧
        recent5roc price_history period < -(2/10) then
      .REVERSAL_DOWN
    else if (15/100 : Rat) < roc ∧ (55/100 : Rat) < momentum_score then
      .BULLISH
    else if roc < -(15/100) ∧ momentum_score < (45/100 : Rat) then
      .BEARISH
    else
      .NEUTRAL

/-- Round-half-to-even integer rounding, the semantics of the builtin round. -/
def pythonRound (q : Rat) : Int :=
  let fl := ⌊q⌋
  let frac := q - (fl : Rat)
  if frac < 1/2 then fl
  else if (1/2 : Rat) < frac then fl + 1
  else if fl % 2 = 0 then fl
  else fl + 1

/-- First element of a list minimizing distance to the current price, the
semantics of min(available_strikes, key=lambda x: abs(x - current_price)). -/
def minByAbs (current_price : Rat) : List Rat → Rat
  | [] => 0
  | a :: rest =>
      rest.foldl
        (fun best x =>
          if |x - current_price| < |best - current_price| then x else best) a

/-- Maximum of a strike list, the semantics of max(itm_strikes). -/
def listMax : List Rat → Rat
  | [] => 0
  | a :: rest => rest.foldl max a

/-- Minimum of a strike list, the semantics of min(itm_strikes). -/
def listMin : List Rat → Rat
  | [] => 0
  | a :: rest => rest.foldl min a

/-- Embedding of find_scalping_strike (lines 311-354). The chain argument is
the lookup bot.option_chains[symbol][expiry]: none when either key is absent.
In the no-chain fallback the source line 329 reads
return atm if direction == CALL else atm, whose two branches are identical;
the embedding reproduces that expression verbatim. -/
def find_scalping_strike (chain : Option (List Rat)) (symbol : String)
    (current_price : Rat) (direction : String) : Option Rat :=
  match chain with
  | none =>
      let interval : Rat := if symbol = "MES" then 5 else 50
      let atm := (pythonRound (current_price / interval) : Rat) * interval
      some (if direction = "CALL" then atm else atm)
  | some available_strikes =>
      if available_strikes.isEmpty then none
      else
        let atm_strike := minByAbs current_price available_strikes
        if direction = "CALL" then
          let itm_strikes := available_strikes.filter (fun s => s ≤ current_price)
          if !itm_strikes.isEmpty then some (listMax itm_strikes)
          else some atm_strike
        else
          let itm_strikes := available_strikes.filter (fun s => current_price ≤ s)
          if !itm_strikes.isEmpty then some (listMin itm_strikes)
          else some atm_strike

/-- Result record of calculate_stops. -/
structure Stops where
  stop_loss : Rat
  profit_target : Rat
  trailing_stop_activation : Rat
deriving DecidableEq, Repr

/-- Embedding of calculate_stops (lines 357-382). The direction and atr
arguments are accepted and unused, exactly as in the source; the multipliers
are the config entries stop_loss_multiplier and profit_target_multiplier. -/
def calculate_stops (entry_price : Rat) (_direction : String) (_atr : Rat)
    (stop_multiplier target_multiplier : Rat) : Stops :=
  let stop_distance := entry_price * (10/100) * stop_multiplier
  let target_distance := entry_price * (25/100) * target_multiplier
  let stop_loss := entry_price - stop_distance
  let profit_target := entry_price + target_distance
  { stop_loss := max (5/100) stop_loss
    profit_target := profit_target
    trailing_stop_activation := entry_price * (115/100) }

/-- Embedding of update_trailing_stop (lines 385-405). Returns the possibly
mutated bot state (highest price in trade) and the optional new stop level. -/
def update_trailing_stop (bs : BotState) (current_price entry_price : Rat)
    (trailing_pct : Rat) : BotState × Option Rat :=
  if current_price ≤ entry_price then (bs, none)
  else
    let bs2 :=
      if bs.highest_price_in_trade < current_price then
        { bs with highest_price_in_trade := current_price }
      else bs
    if entry_price < bs2.highest_price_in_trade * (1 - trailing_pct) then
      (bs2, some (bs2.highest_price_in_trade * (1 - trailing_pct)))
    else (bs2, none)

/-- Local variables of scalping_loop (lines 494-501, 508). -/
structure LoopState where
  in_position : Bool
  current_direction : Option String
  current_strike : Option Rat
  entry_price : Rat
  stop_loss : Rat
  profit_target : Rat
  last_trade_time : Rat
  symbol_index : Nat
deriving DecidableEq, Repr

/-- Configuration entries read by scalping_loop, with the option-chain tables
of the bot folded in as a per-symbol lookup for the fixed expiry. -/
structure Config where
  max_trades : Nat
  cooldown_seconds : Rat
  allow_reversals : Bool
  max_daily_loss_pct : Rat
  account_balance : Rat
  stop_loss_multiplier : Rat
  profit_target_multiplier : Rat
  symbols : List String
  chains : String → Option (List Rat)

/-- Order intents emitted by one cycle of the loop: place_scalp_order issues a
Buy, close_position issues a Sell. -/
inductive Intent where
  | buy (symbol : String) (strike : Rat) (direction : String)
  | sell (symbol : String) (strike : Option Rat) (direction : Option String)
deriving DecidableEq, Repr

/-- Embedding of the exit-rule ladder of scalping_loop (lines 553-574):
profit target first, then stop loss, then the reversal rules when enabled.
Returns the exit_reason string when some rule matches. -/
def check_exit (current_price stop_loss profit_target : Rat) (signal : Signal)
    (current_direction : Option String) (allow_reversals : Bool) :
    Option String :=
  if profit_target ≤ current_price then some "Profit target"
  else if current_price ≤ stop_loss then some "Stop loss"
  else if allow_reversals then
    if (signal = .REVERSAL_DOWN ∨ signal = .BEARISH) ∧
        current_direction = some "CALL" then
      some "Reversal DOWN detected - switching to PUT"
    else if (signal = .REVERSAL_UP ∨ signal = .BULLISH) ∧
        current_direction = some "PUT" then
      some "Reversal UP detected - switching to CALL"
    else none
  else none

/-- Order bookkeeping shared by place_scalp_order (lines 408-449) and
close_position (lines 452-478): record a Submitted order under the next order
id and increment the id counter. -/
def place_order (bs : BotState) (action : String) (quantity : Nat) : BotState :=
  { bs with
    active_orders := setOrder bs.active_orders bs.nextOrderId
      { action := action, quantity := quantity, status := "Submitted",
        filled := 0, avgPrice := 0 },
    nextOrderId := bs.nextOrderId + 1 }

/-- Embedding of the in-position half of a loop cycle (lines 545-581): update
the trailing stop with trailing_pct 0.08, raise the stop when the candidate
beats it, then run the exit ladder; a match submits a Sell via close_position,
clears in_position and restamps last_trade_time. -/
def in_position_branch (cfg : Config) (now : Rat) (symbol : String)
    (current_price : Rat) (signal : Signal) (bs : BotState) (ls : LoopState) :
    (BotState × LoopState) × List Intent :=
  let tr := update_trailing_stop bs current_price ls.entry_price (8/100)
  let bs := tr.1
  let ls :=
    match tr.2 with
    | some new_stop =>
        if ls.stop_loss < new_stop then { ls with stop_loss := new_stop }
        else ls
    | none => ls
  match check_exit current_price ls.stop_loss ls.profit_target signal
      ls.current_direction cfg.allow_reversals with
  | some _reason =>
      let bs := place_order bs "SELL" 1
      ((bs, { ls with in_position := false, last_trade_time := now }),
       [Intent.sell symbol ls.current_strike ls.current_direction])
  | none => ((bs, ls), [])

/-- Embedding of the entry half of a loop cycle (lines 583-637): enforce the
cooldown gate, then on a bullish or bearish signal select a strike, submit a
Buy via place_scalp_order, and arm the stop and target from calculate_stops. -/
def entry_branch (cfg : Config) (now : Rat) (symbol : String)
    (current_price : Rat) (signal : Signal) (bs : BotState) (ls : LoopState) :
    (BotState × LoopState) × List Intent :=
  if now - ls.last_trade_time < cfg.cooldown_seconds then ((bs, ls), [])
  else if signal = .BULLISH ∨ signal = .REVERSAL_UP then
    let strikeFound := find_scalping_strike (cfg.chains symbol) symbol
      current_price "CALL"
    let ls := { ls with current_strike := strikeFound }
    match strikeFound with
    | none => ((bs, ls), [])
    | some strike =>
        let ls := { ls with current_direction := some "CALL" }
        let bs := place_order bs "BUY" 1
        let stops := calculate_stops current_price "CALL" 10
          cfg.stop_loss_multiplier cfg.profit_target_multiplier
        ((bs, { ls with in_position := true, entry_price := current_price,
                        stop_loss := stops.stop_loss,
                        profit_target := stops.profit_target }),
         [Intent.buy symbol strike "CALL"])
  else if signal = .BEARISH ∨ signal = .REVERSAL_DOWN then
    let strikeFound := find_scalping_strike (cfg.chains symbol) symbol
      current_price "PUT"
    let ls := { ls with current_strike := strikeFound }
    match strikeFound with
    | none => ((bs, ls), [])
    | some strike =>
        let ls := { ls with current_direction := some "PUT" }
        let bs := place_order bs "BUY" 1
        let stops := calculate_stops current_price "PUT" 10
          cfg.stop_loss_multiplier cfg.profit_target_multiplier
        ((bs, { ls with in_position := true, entry_price := current_price,
                        stop_loss := stops.stop_loss,
                        profit_target := stops.profit_target }),
         [Intent.buy symbol strike "PUT"])
  else ((bs, ls), [])

/-- Embedding of one iteration of the while loop in scalping_loop (lines
510-644). The trade-count gate and the daily-loss gate hit continue before
anything else runs; then the no-price check; then the symbol rotation, the
momentum classification, and the in-position or entry branch. -/
def scalping_cycle (cfg : Config) (now : Rat) (bs : BotState) (ls : LoopState) :
    (BotState × LoopState) × List Intent :=
  if cfg.max_trades ≤ bs.trades_today then ((bs, ls), [])
  else if bs.daily_pnl < -(cfg.max_daily_loss_pct * cfg.account_balance) then
    ((bs, ls), [])
  else if bs.current_price = 0 then ((bs, ls), [])
  else
    let symbol := cfg.symbols.getD (ls.symbol_index % cfg.symbols.length) "MES"
    let ls := { ls with symbol_index := ls.symbol_index + 1 }
    let current_price := bs.current_price
    let signal := detect_momentum bs.price_history 20
    if ls.in_position then
      in_position_branch cfg now symbol current_price signal bs ls
    else
      entry_branch cfg now symbol current_price signal bs ls

/-- Asynchronous events hitting one engine instance: pushed ticks, pushed
order-status acknowledgements, and one polling cycle of the loop. -/
inductive Event where
  | tick (now : Rat) (tickType : Int) (price : Rat)
  | status (orderId : Nat) (st : String) (filledQty : Rat) (avgPrice : Rat)
  | cycle (now : Rat)
deriving DecidableEq, Repr

/-- One interleaved step of the engine: ticks and order acknowledgements act on
the bot object only, a cycle runs scalping_cycle on bot and loop state. -/
def step (cfg : Config) (st : BotState × LoopState) (e : Event) :
    (BotState × LoopState) × List Intent :=
  match e with
  | .tick now t p => ((tickPrice st.1 now t p, st.2), [])
  | .status oid s f p => ((orderStatus st.1 oid s f p, st.2), [])
  | .cycle now => scalping_cycle cfg now st.1 st.2

/-- Run a sequence of interleaved events from a state. -/
def run (cfg : Config) (st : BotState × LoopState) (es : List Event) :
    BotState × LoopState :=
  es.foldl (fun s e => (step cfg s e).1) st

/-- True of an active-order entry that is a Sell still awaiting its
acknowledgement. Each such record is a Position in the Exiting state: the
lifecycle resolves Exiting only on a terminal status of the Sell order, and
the loop clears its in_position flag already at Sell submission (line 579),
so a pending Sell carries the Exiting Position outside the loop slot. -/
def isPendingSell (p : Nat × OrderRec) : Bool :=
  p.2.action = "SELL" && p.2.status = "Submitted"

/-- Number of Positions in the Exiting state: pending Sell orders of the
active-order dict. -/
def pendingSells (l : List (Nat × OrderRec)) : Nat :=
  l.countP isPendingSell

/-- Number of Positions in the Entering or InPosition state: the loop owns a
single slot whose occupancy is the in_position flag, set at Buy submission
(line 607) and cleared at Sell submission (line 579). -/
def loopSlot (st : BotState × LoopState) : Nat :=
  if st.2.in_position then 1 else 0

/-- Number of Positions of one engine instance in a non-Flat state
({Entering, InPosition, Exiting}): the loop slot plus every Exiting Position
still pending as an unacknowledged Sell order. -/
def nonFlatPositions (st : BotState × LoopState) : Nat :=
  loopSlot st + pendingSells st.1.active_orders

/-- The session counters of the bot: tradesToday, wins, losses, totalPnl and
dailyPnl, in that order. -/
def sessionStats (bs : BotState) : Nat × Nat × Nat × Rat × Rat :=
  (bs.trades_today, bs.wins, bs.losses, bs.total_pnl, bs.daily_pnl)

/-- Initial bot state from OptionsScalper.__init__ (lines 30-71). -/
def initBot : BotState :=
  { current_price := 0, bid := 0, ask := 0, last_price := 0,
    price_history := [], active_orders := [], filled_orders := [],
    nextOrderId := 1, trades_today := 0, wins := 0, losses := 0,
    total_pnl := 0, daily_pnl := 0, entry_price := 0,
    highest_price_in_trade := 0, lowest_price_in_trade := 999999 }

/-- Initial loop locals (lines 494-501), with last_trade_time stamped at loop
start. -/
def initLoop (start : Rat) : LoopState :=
  { in_position := false, current_direction := none, current_strike := none,
    entry_price := 0, stop_loss := 0, profit_target := 0,
    last_trade_time := start, symbol_index := 0 }

/-- One stop update as iterated by the loop while in position (lines 546-551):
run update_trailing_stop at the new price and raise the held stop when the
candidate beats it. -/
def trailStep (pct ep : Rat) (s : BotState × Rat) (price : Rat) :
    BotState × Rat :=
  let tr := update_trailing_stop s.1 price ep pct
  match tr.2 with
  | some new_stop => if s.2 < new_stop then (tr.1, new_stop) else (tr.1, s.2)
  | none => (tr.1, s.2)

/-- The stop level the exit ladder of a cycle sees: the held stop after the
trailing update of that cycle. -/
def trailedStop (bs : BotState) (current_price : Rat) (ls : LoopState) : Rat :=
  match (update_trailing_stop bs current_price ls.entry_price (8/100)).2 with
  | some new_stop =>
      if ls.stop_loss < new_stop then new_stop else ls.stop_loss
  | none => ls.stop_loss

/-- A session configuration used by concrete witnesses: fifty trades per day,
ten-second cooldown, reversals on, ten percent loss cap on a 10000 balance,
one traded symbol and no chain snapshot. -/
def cfgA : Config :=
  { max_trades := 50, cooldown_seconds := 10, allow_reversals := true,
    max_daily_loss_pct := 1/10, account_balance := 10000,
    stop_loss_multiplier := 1, profit_target_multiplier := 2,
    symbols := ["MES"], chains := fun _ => none }

/-- Loop locals of an open Call position entered at 100 with stop 90 and
target 125, as the claims instantiate them. -/
def loopPos : LoopState :=
  { in_position := true, current_direction := some "CALL",
    current_strike := some 100, entry_price := 100, stop_loss := 90,
    profit_target := 125, last_trade_time := 0, symbol_index := 0 }

/-- Bot state at price 130 with the daily trade budget exhausted. -/
def botGate : BotState :=
  { initBot with current_price := 130, trades_today := 50,
                 entry_price := 100, highest_price_in_trade := 100 }

/-- Bot state at price 130 past the daily loss cap of cfgA. -/
def botLoss : BotState :=
  { initBot with current_price := 130, daily_pnl := -2000,
                 entry_price := 100, highest_price_in_trade := 100 }

/-- Bot state at price 130 with every gate of cfgA passing. -/
def botPass : BotState :=
  { initBot with current_price := 130,
                 entry_price := 100, highest_price_in_trade := 100 }

/-- The pending Buy record of botEntering. -/
def buyRec : OrderRec :=
  { action := "BUY", quantity := 1, status := "Submitted",
    filled := 0, avgPrice := 0 }

/-- Bot state with one pending Buy order, as after an entry submission. -/
def botEntering : BotState :=
  { initBot with
      current_price := 130,
      active_orders := [(7, buyRec)] }

/-- The pending Sell record of botSell. -/
def sellRec : OrderRec :=
  { action := "SELL", quantity := 1, status := "Submitted",
    filled := 0, avgPrice := 0 }

/-- Bot state with one pending Sell order and a recorded entry at 100. -/
def botSell : BotState :=
  { initBot with
      entry_price := 100, wins := 2, losses := 3,
      trades_today := 6, total_pnl := 40, daily_pnl := 40,
      active_orders := [(9, sellRec)] }

/-- A 20-point window whose preceding 5-point sub-window has rate of change
exactly -0.15 and whose most recent 5-point sub-window has rate of change
exactly +0.25. -/
def w20rev : List PricePoint :=
  [⟨0, 10000⟩, ⟨1, 10000⟩, ⟨2, 10000⟩, ⟨3, 10000⟩, ⟨4, 10000⟩,
   ⟨5, 10000⟩, ⟨6, 10000⟩, ⟨7, 10000⟩, ⟨8, 10000⟩, ⟨9, 10000⟩,
   ⟨10, 10000⟩, ⟨11, 9995⟩, ⟨12, 9990⟩, ⟨13, 9985⟩, ⟨14, 9985⟩,
   ⟨15, 10000⟩, ⟨16, 10005⟩, ⟨17, 10010⟩, ⟨18, 10020⟩, ⟨19, 10025⟩]

/-- Session configuration for the delayed-acknowledgement trace: as cfgA but
with no cooldown, so the loop may re-enter immediately after an exit. -/
def cfgB : Config :=
  { cfgA with cooldown_seconds := 0 }

/-- A concrete reachable interleaving: twenty rising Last ticks build a
bullish window; the first cycle enters (Buy order 1); the Buy fills; a tick
jumps past the profit target; the next cycle exits, submitting Sell order 2
whose acknowledgement never arrives; the following cycle, with the Sell still
pending, enters again (Buy order 3). -/
def traceC2 : List Event :=
  ((List.range 20).map (fun i => Event.tick (i : Rat) 4 ((1000 : Rat) + i))) ++
    [Event.cycle 100, Event.status 1 "Filled" 1 1019,
     Event.tick 101 4 1600, Event.cycle 102, Event.cycle 103]

theorem lookupOrder_setOrder_self (l : List (Nat × OrderRec)) (k : Nat)
    (v : OrderRec) : lookupOrder (setOrder l k v) k = some v := by
  induction l with
  | nil => simp [setOrder, lookupOrder]
  | cons hd tl ih =>
      by_cases h : hd.1 = k
      · simp [setOrder, h, lookupOrder]
      · simp [setOrder, h, lookupOrder, ih]

theorem lookupOrder_removeOrder_self (l : List (Nat × OrderRec)) (k : Nat) :
    lookupOrder (removeOrder l k) k = none := by
  induction l with
  | nil => simp [removeOrder, lookupOrder]
  | cons hd tl ih =>
      by_cases h : hd.1 = k
      · simpa [removeOrder, h] using ih
      · simpa [removeOrder, h, lookupOrder] using ih

theorem on_order_filled_filled_orders (s : BotState) (oid : Nat) (p : Rat) :
    (on_order_filled s oid p).filled_orders = s.filled_orders := by
  unfold on_order_filled
  cases h : lookupOrder s.filled_orders oid with
  | none => rfl
  | some info =>
      by_cases hb : info.action = "BUY"
      · simp [hb]
      · by_cases hs : info.action = "SELL"
        · by_cases he : 0 < s.entry_price
          · by_cases hp : 0 < (p - s.entry_price) * (info.quantity : Rat) * 5 <;>
              simp [hb, hs, he, hp]
          · simp [hb, hs, he]
        · simp [hb, hs]

theorem sessionStats_tickBranch (s : BotState) (now : Rat) (t : Int)
    (p : Rat) : sessionStats (tickBranch s now t p) = sessionStats s := by
  unfold tickBranch
  split_ifs <;> rfl

theorem sessionStats_tickSynth (s : BotState) (now : Rat) :
    sessionStats (tickSynth s now) = sessionStats s := by
  unfold tickSynth
  split_ifs <;> rfl

theorem sessionStats_tickPrice (s : BotState) (now : Rat) (t : Int) (p : Rat) :
    sessionStats (tickPrice s now t p) = sessionStats s := by
  unfold tickPrice
  split_ifs with h
  · rfl
  · rw [sessionStats_tickSynth, sessionStats_tickBranch]

theorem sessionStats_place_order (bs : BotState) (a : String) (q : Nat) :
    sessionStats (place_order bs a q) = sessionStats bs := rfl

theorem sessionStats_update_trailing_stop (bs : BotState) (cp ep pct : Rat) :
    sessionStats (update_trailing_stop bs cp ep pct).1 = sessionStats bs := by
  unfold update_trailing_stop
  split_ifs <;> first
    | rfl
    | (dsimp only; split_ifs <;> rfl)

theorem tickBranch_active_orders (s : BotState) (now : Rat) (t : Int)
    (p : Rat) : (tickBranch s now t p).active_orders = s.active_orders := by
  unfold tickBranch
  split_ifs <;> rfl

theorem tickSynth_active_orders (s : BotState) (now : Rat) :
    (tickSynth s now).active_orders = s.active_orders := by
  unfold tickSynth
  split_ifs <;> rfl

theorem tickPrice_active_orders (s : BotState) (now : Rat) (t : Int)
    (p : Rat) : (tickPrice s now t p).active_orders = s.active_orders := by
  unfold tickPrice
  split_ifs with h
  · rfl
  · rw [tickSynth_active_orders, tickBranch_active_orders]

theorem update_trailing_stop_active_orders (bs : BotState) (cp ep pct : Rat) :
    (update_trailing_stop bs cp ep pct).1.active_orders = bs.active_orders := by
  unfold update_trailing_stop
  split_ifs <;> first
    | rfl
    | (dsimp only; split_ifs <;> rfl)

theorem pendingSells_setOrder_le (l : List (Nat × OrderRec)) (k : Nat)
    (v : OrderRec) :
    pendingSells (setOrder l k v) ≤ pendingSells l + 1 := by
  induction l with
  | nil =>
      simp only [setOrder, pendingSells, List.countP_cons, List.countP_nil]
      split_ifs <;> omega
  | cons hd tl ih =>
      obtain ⟨k2, v2⟩ := hd
      simp only [setOrder]
      by_cases h : k2 = k
      · rw [if_pos h]
        simp only [pendingSells, List.countP_cons] at ih ⊢
        split_ifs <;> omega
      · rw [if_neg h]
        simp only [pendingSells, List.countP_cons] at ih ⊢
        split_ifs <;> omega

theorem pendingSells_setOrder_of_not (l : List (Nat × OrderRec)) (k : Nat)
    (v : OrderRec) (hv : isPendingSell (k, v) = false) :
    pendingSells (setOrder l k v) ≤ pendingSells l := by
  have hite : (if isPendingSell (k, v) = true then 1 else 0) = 0 := by
    rw [hv]
    rfl
  induction l with
  | nil =>
      simp only [setOrder, pendingSells, List.countP_cons, List.countP_nil]
      omega
  | cons hd tl ih =>
      obtain ⟨k2, v2⟩ := hd
      simp only [setOrder]
      by_cases h : k2 = k
      · rw [if_pos h]
        simp only [pendingSells, List.countP_cons] at ih ⊢
        omega
      · rw [if_neg h]
        simp only [pendingSells, List.countP_cons] at ih ⊢
        split_ifs <;> omega

theorem pendingSells_removeOrder_le (l : List (Nat × OrderRec)) (k : Nat) :
    pendingSells (removeOrder l k) ≤ pendingSells l :=
  List.Sublist.countP_le _ (List.filter_sublist l)

theorem on_order_filled_active_orders (s : BotState) (oid : Nat) (p : Rat) :
    (on_order_filled s oid p).active_orders = s.active_orders := by
  unfold on_order_filled
  cases h : lookupOrder s.filled_orders oid with
  | none => rfl
  | some info =>
      by_cases hb : info.action = "BUY"
      · simp [hb]
      · by_cases hs : info.action = "SELL"
        · by_cases he : 0 < s.entry_price
          · by_cases hp : 0 < (p - s.entry_price) * (info.quantity : Rat) * 5 <;>
              simp [hb, hs, he, hp]
          · simp [hb, hs, he]
        · simp [hb, hs]

theorem sessionStats_in_position_branch (cfg : Config) (now : Rat)
    (symbol : String) (cp : Rat) (signal : Signal) (bs : BotState)
    (ls : LoopState) :
    sessionStats (in_position_branch cfg now symbol cp signal bs ls).1.1 =
      sessionStats bs := by
  unfold in_position_branch
  dsimp only
  split <;> split <;>
    simp [sessionStats_place_order, sessionStats_update_trailing_stop]

theorem sessionStats_entry_branch (cfg : Config) (now : Rat)
    (symbol : String) (cp : Rat) (signal : Signal) (bs : BotState)
    (ls : LoopState) :
    sessionStats (entry_branch cfg now symbol cp signal bs ls).1.1 =
      sessionStats bs := by
  unfold entry_branch
  split_ifs <;> first
    | rfl
    | (dsimp only; split <;> rfl)

theorem sessionStats_scalping_cycle (cfg : Config) (now : Rat) (bs : BotState)
    (ls : LoopState) :
    sessionStats (scalping_cycle cfg now bs ls).1.1 = sessionStats bs := by
  unfold scalping_cycle
  split_ifs <;> first
    | rfl
    | (dsimp only
       split_ifs <;> first
         | exact sessionStats_in_position_branch ..
         | exact sessionStats_entry_branch ..)

theorem sessionStats_orderStatus_of_not_sell_fill (bs : BotState) (oid : Nat)
    (stat : String) (f p : Rat)
    (h : ∀ rec0 : OrderRec, lookupOrder bs.active_orders oid = some rec0 →
      stat = "Filled" → rec0.action = "SELL" → 0 < bs.entry_price → False) :
    sessionStats (orderStatus bs oid stat f p) = sessionStats bs := by
  unfold orderStatus
  cases hl : lookupOrder bs.active_orders oid with
  | none => rfl
  | some rec0 =>
      dsimp only
      by_cases hstat : stat = "Filled"
      · subst hstat
        rw [if_pos rfl]
        unfold on_order_filled
        dsimp only
        rw [lookupOrder_setOrder_self]
        by_cases hb : rec0.action = "BUY"
        · simp [sessionStats, hb]
        · by_cases hs2 : rec0.action = "SELL"
          · have hent : ¬ 0 < bs.entry_price := fun he =>
              h rec0 hl rfl hs2 he
            simp [sessionStats, hb, hs2, hent]
          · simp [sessionStats, hb, hs2]
      · simp [sessionStats, hstat]

/-- C10: every pushed tick event whose price is non-positive leaves the whole
aggregator state unchanged, for every tick type: current price, bid, ask, last
price and the price history are exactly as before the event. -/
theorem nonpositive_tick_ignored (s : BotState) (now : Rat) (tickType : Int)
    (price : Rat) (h : price ≤ 0) : tickPrice s now tickType price = s := by
  unfold tickPrice
  exact if_pos h

theorem nonpositive_tick_ignored_witness :
    ((0 : Rat) ≤ 0 ∧ tickPrice botSell 5 4 0 = botSell) ∧
    ((-3 : Rat) ≤ 0 ∧ tickPrice botSell 5 1 (-3) = botSell) :=
  ⟨⟨le_refl 0, nonpositive_tick_ignored botSell 5 4 0 (le_refl 0)⟩,
   ⟨by norm_num, nonpositive_tick_ignored botSell 5 1 (-3) (by norm_num)⟩⟩

/-- C4: evaluation of the code at the failing input. With no chain snapshot,
symbol MES, current price 5001 and direction PUT, find_scalping_strike returns
the plain rounded ATM strike 5000 rather than ATM plus one increment (5005);
the Call direction at the same price also gets the plain ATM strike 5000
rather than ATM minus one increment (4995), because line 329 returns atm in
both branches of its conditional. -/
theorem heuristic_strike_returns_plain_atm :
    find_scalping_strike none "MES" 5001 "PUT" = some 5000 ∧
    find_scalping_strike none "MES" 5001 "CALL" = some 5000 ∧
    ((5000 : Rat) = 5005 → False) ∧ ((5000 : Rat) = 4995 → False) := by
  refine ⟨by decide, by decide, by norm_num, by norm_num⟩

/-- C7 counterexample: at entryPrice 100, stopMultiplier 1, targetMultiplier 2
the calculator returns profitTarget 150, not the 125 the claim states, so the
claimed scenario is false at this input. -/
theorem profit_target_scenario_not_125 :
    (calculate_stops 100 "CALL" 10 1 2).profit_target = 150 ∧
    ((calculate_stops 100 "CALL" 10 1 2).profit_target = 125 → False) := by
  constructor
  · decide
  · intro h
    rw [show (calculate_stops 100 "CALL" 10 1 2).profit_target = 150
          from by decide] at h
    norm_num at h

/-- C7 amended: the calculator returns
stopLoss = max(0.05, entryPrice - entryPrice*0.10*stopMultiplier),
profitTarget = entryPrice + entryPrice*0.25*targetMultiplier and
trailingActivation = entryPrice*1.15; the scenario entryPrice 100,
stopMultiplier 1, targetMultiplier 2 yields stopLoss 90, profitTarget 150 and
trailingActivation 115; a subsequent price of 130 while in position with a
neutral signal triggers no exit, while a price of 150 triggers exit with
reason Profit target, the rule checked first. -/
theorem calculate_stops_behavior :
    (∀ (ep sm tm atr : Rat) (d : String),
      calculate_stops ep d atr sm tm =
        { stop_loss := max (5/100) (ep - ep * (10/100) * sm),
          profit_target := ep + ep * (25/100) * tm,
          trailing_stop_activation := ep * (115/100) }) ∧
    calculate_stops 100 "CALL" 10 1 2 =
      { stop_loss := 90, profit_target := 150,
        trailing_stop_activation := 115 } ∧
    (in_position_branch cfgA 50 "MES" 130 .NEUTRAL botPass
        { loopPos with profit_target := 150 }).2 = [] ∧
    (in_position_branch cfgA 50 "MES" 150 .NEUTRAL botPass
        { loopPos with profit_target := 150 }).2 =
      [Intent.sell "MES" (some 100) (some "CALL")] ∧
    check_exit 150 90 150 .NEUTRAL (some "CALL") true = some "Profit target" :=
  ⟨fun ep sm tm atr d => rfl, by decide, by decide, by decide, by decide⟩

theorem pendingSells_orderStatus_le (bs : BotState) (oid : Nat)
    (stat : String) (f p : Rat) :
    pendingSells (orderStatus bs oid stat f p).active_orders ≤
      pendingSells bs.active_orders + 1 := by
  unfold orderStatus
  cases hl : lookupOrder bs.active_orders oid with
  | none =>
      dsimp only
      omega
  | some rec0 =>
      dsimp only
      split_ifs with hstat
      · rw [on_order_filled_active_orders]
        dsimp only
        calc pendingSells (removeOrder (setOrder bs.active_orders oid
              { rec0 with status := stat, filled := f, avgPrice := p }) oid)
            ≤ pendingSells (setOrder bs.active_orders oid
                { rec0 with status := stat, filled := f, avgPrice := p }) :=
              pendingSells_removeOrder_le ..
          _ ≤ pendingSells bs.active_orders + 1 := pendingSells_setOrder_le ..
      · exact pendingSells_setOrder_le ..

theorem nonFlat_in_position_branch_le (cfg : Config) (now : Rat)
    (symbol : String) (cp : Rat) (signal : Signal) (bs : BotState)
    (ls : LoopState) :
    nonFlatPositions (in_position_branch cfg now symbol cp signal bs ls).1 ≤
      nonFlatPositions (bs, ls) + 1 := by
  have hactive := update_trailing_stop_active_orders bs cp ls.entry_price
    (8/100)
  have hsell := pendingSells_setOrder_le bs.active_orders
    (update_trailing_stop bs cp ls.entry_price (8/100)).1.nextOrderId
    { action := "SELL", quantity := 1, status := "Submitted",
      filled := 0, avgPrice := 0 }
  have h0 : (if (false = true : Prop) then (1 : Nat) else 0) = 0 := rfl
  unfold in_position_branch
  dsimp only
  cases htr : (update_trailing_stop bs cp ls.entry_price (8/100)).2 with
  | none =>
      dsimp only
      cases hce : check_exit cp ls.stop_loss ls.profit_target signal
          ls.current_direction cfg.allow_reversals with
      | none =>
          simp only [place_order, nonFlatPositions, loopSlot]
          dsimp only
          rw [hactive]
          omega
      | some r =>
          simp only [place_order, nonFlatPositions, loopSlot]
          dsimp only
          rw [hactive]
          rw [h0]
          omega
  | some ns =>
      dsimp only
      by_cases hlt : ls.stop_loss < ns
      · rw [if_pos hlt]
        dsimp only
        cases hce : check_exit cp ns ls.profit_target signal
            ls.current_direction cfg.allow_reversals with
        | none =>
            simp only [place_order, nonFlatPositions, loopSlot]
            dsimp only
            rw [hactive]
            omega
        | some r =>
            simp only [place_order, nonFlatPositions, loopSlot]
            dsimp only
            rw [hactive]
            rw [h0]
            omega
      · rw [if_neg hlt]
        try dsimp only
        cases hce : check_exit cp ls.stop_loss ls.profit_target signal
            ls.current_direction cfg.allow_reversals with
        | none =>
            simp only [place_order, nonFlatPositions, loopSlot]
            dsimp only
            rw [hactive]
            omega
        | some r =>
            simp only [place_order, nonFlatPositions, loopSlot]
            dsimp only
            rw [hactive]
            rw [h0]
            omega

theorem nonFlat_entry_branch_le (cfg : Config) (now : Rat)
    (symbol : String) (cp : Rat) (signal : Signal) (bs : BotState)
    (ls : LoopState) :
    nonFlatPositions (entry_branch cfg now symbol cp signal bs ls).1 ≤
      nonFlatPositions (bs, ls) + 1 := by
  have hbuy := pendingSells_setOrder_of_not bs.active_orders bs.nextOrderId
    { action := "BUY", quantity := 1, status := "Submitted",
      filled := 0, avgPrice := 0 } (by rfl)
  have h1 : (if (true = true : Prop) then (1 : Nat) else 0) = 1 := rfl
  have hslot : ∀ ls2 : LoopState, ls2.in_position = ls.in_position →
      nonFlatPositions (bs, ls2) ≤ nonFlatPositions (bs, ls) + 1 := by
    intro ls2 hpos
    unfold nonFlatPositions loopSlot
    dsimp only
    rw [hpos]
    omega
  have hentry : ∀ (d : Option String) (cs : Option Rat)
      (ep sl pt lt : Rat) (si : Nat),
      nonFlatPositions (place_order bs "BUY" 1,
        ⟨true, d, cs, ep, sl, pt, lt, si⟩) ≤
        nonFlatPositions (bs, ls) + 1 := by
    intro d cs ep sl pt lt si
    unfold place_order nonFlatPositions loopSlot
    dsimp only
    rw [h1]
    omega
  unfold entry_branch
  dsimp only
  split_ifs with hc hbull hbear
  · exact hslot ls rfl
  · cases hstrike : find_scalping_strike (cfg.chains symbol) symbol cp
        "CALL" with
    | none => exact hslot { ls with current_strike := none } rfl
    | some strike => exact hentry _ _ _ _ _ _ _
  · cases hstrike : find_scalping_strike (cfg.chains symbol) symbol cp
        "PUT" with
    | none => exact hslot { ls with current_strike := none } rfl
    | some strike => exact hentry _ _ _ _ _ _ _
  · exact hslot ls rfl

theorem nonFlat_scalping_cycle_le (cfg : Config) (now : Rat) (bs : BotState)
    (ls : LoopState) :
    nonFlatPositions (scalping_cycle cfg now bs ls).1 ≤
      nonFlatPositions (bs, ls) + 1 := by
  unfold scalping_cycle
  split_ifs <;> first
    | exact Nat.le_succ _
    | (dsimp only
       split_ifs with hpos
       · refine le_trans (nonFlat_in_position_branch_le ..) ?_
         unfold nonFlatPositions loopSlot
         dsimp only
         omega
       · refine le_trans (nonFlat_entry_branch_le ..) ?_
         unfold nonFlatPositions loopSlot
         dsimp only
         omega)

set_option maxRecDepth 40000 in
/-- C2 counterexample: a reachable interleaving with a delayed Sell
acknowledgement leaves one engine instance holding two non-Flat Positions at
once. After the trace - entry, Buy fill, price past the target, exit cycle
submitting Sell order 2, then a new entry cycle while the Sell
acknowledgement is still outstanding - the loop slot is occupied by the new
Entering Position (in_position true, Buy order 3 pending) while the old
Position is still Exiting (Sell order 2 still Submitted in active_orders), so
the non-Flat Position count is 2, not at most 1. -/
theorem two_nonflat_positions_reachable :
    (run cfgB (initBot, initLoop 0) traceC2).2.in_position = true ∧
    lookupOrder (run cfgB (initBot, initLoop 0) traceC2).1.active_orders 2 =
      some sellRec ∧
    lookupOrder (run cfgB (initBot, initLoop 0) traceC2).1.active_orders 3 =
      some buyRec ∧
    nonFlatPositions (run cfgB (initBot, initLoop 0) traceC2) = 2 := by
  refine ⟨by decide, by decide, by decide, by decide⟩

/-- C2 amended: at most one Position is in Entering or InPosition at any time
- the loop owns a single slot - and every pushed tick leaves the non-Flat
Position count unchanged, and every single step (tick, order status or cycle)
creates at most one new non-Flat Position; but a Position in Exiting persists
as a pending Sell order until its acknowledgement arrives, outside the loop
slot, so under a delayed acknowledgement it coexists with the next Entering
Position and the count of non-Flat Positions exceeds one. -/
theorem nonflat_positions_dynamics (cfg : Config) :
    (∀ st : BotState × LoopState, loopSlot st ≤ 1) ∧
    (∀ (st : BotState × LoopState) (now : Rat) (t : Int) (p : Rat),
      nonFlatPositions ((step cfg st (Event.tick now t p)).1) =
        nonFlatPositions st) ∧
    (∀ (st : BotState × LoopState) (e : Event),
      nonFlatPositions (step cfg st e).1 ≤ nonFlatPositions st + 1) := by
  have htick : ∀ (st : BotState × LoopState) (now : Rat) (t : Int) (p : Rat),
      nonFlatPositions ((step cfg st (Event.tick now t p)).1) =
        nonFlatPositions st := by
    intro st now t p
    show nonFlatPositions (tickPrice st.1 now t p, st.2) = nonFlatPositions st
    unfold nonFlatPositions loopSlot
    rw [tickPrice_active_orders]
  refine ⟨?_, htick, ?_⟩
  · intro st
    unfold loopSlot
    split_ifs <;> omega
  · intro st e
    match e with
    | Event.tick now t p => rw [htick st now t p]; omega
    | Event.status oid stat f p =>
        show nonFlatPositions (orderStatus st.1 oid stat f p, st.2) ≤
          nonFlatPositions st + 1
        unfold nonFlatPositions loopSlot
        have := pendingSells_orderStatus_le st.1 oid stat f p
        dsimp only
        omega
    | Event.cycle now =>
        exact nonFlat_scalping_cycle_le cfg now st.1 st.2

/-- C6: update_trailing_stop returns no candidate unless the current price
exceeds the entry price, and a returned candidate equals the updated highest
price times (1 - trailingPct) and always exceeds the entry price; one held
stop update (the max the caller takes) never lowers the stop, so along any
price sequence, in particular any increasing one, the effective stop never
decreases. -/
theorem trailing_stop_monotone (pct ep : Rat) :
    (∀ (bs : BotState) (cp : Rat), cp ≤ ep →
      (update_trailing_stop bs cp ep pct).2 = none) ∧
    (∀ (bs : BotState) (cp c : Rat),
      (update_trailing_stop bs cp ep pct).2 = some c →
      ep < c ∧
      c = (update_trailing_stop bs cp ep pct).1.highest_price_in_trade *
        (1 - pct)) ∧
    (∀ (s : BotState × Rat) (price : Rat),
      s.2 ≤ (trailStep pct ep s price).2) ∧
    (∀ (s : BotState × Rat) (prices : List Rat),
      List.Chain' (· ≤ ·) prices →
      s.2 ≤ (prices.foldl (trailStep pct ep) s).2) := by
  have step_mono : ∀ (s : BotState × Rat) (price : Rat),
      s.2 ≤ (trailStep pct ep s price).2 := by
    intro s price
    unfold trailStep
    cases heq : (update_trailing_stop s.1 price ep pct).2 with
    | none => simp [heq]
    | some ns =>
        simp only [heq]
        split_ifs with hlt
        · exact le_of_lt hlt
        · exact le_refl _
  have fold_mono : ∀ (prices : List Rat) (s : BotState × Rat),
      s.2 ≤ (prices.foldl (trailStep pct ep) s).2 := by
    intro prices
    induction prices with
    | nil => intro s; exact le_refl _
    | cons p rest ih =>
        intro s
        exact le_trans (step_mono s p) (ih _)
  refine ⟨?_, ?_, step_mono, fun s prices _ => fold_mono prices s⟩
  · intro bs cp h
    simp [update_trailing_stop, h]
  · intro bs cp c h
    by_cases h1 : cp ≤ ep
    · simp [update_trailing_stop, h1] at h
    · by_cases hh : bs.highest_price_in_trade < cp
      · by_cases h2 : ep < cp * (1 - pct)
        · simp [update_trailing_stop, h1, hh, h2] at h ⊢
          constructor <;> linarith
        · simp [update_trailing_stop, h1, hh, h2] at h
      · by_cases h2 : ep < bs.highest_price_in_trade * (1 - pct)
        · simp [update_trailing_stop, h1, hh, h2] at h ⊢
          constructor <;> linarith
        · simp [update_trailing_stop, h1, hh, h2] at h

theorem trailing_stop_monotone_witness :
    ((50 : Rat) ≤ 100 ∧
      (update_trailing_stop botPass 50 100 (8/100)).2 = none) ∧
    (List.Chain' (· ≤ ·) [(110 : Rat), 120, 130] ∧
      (90 : Rat) ≤
        ([(110 : Rat), 120, 130].foldl (trailStep (8/100) 100)
          (botPass, 90)).2) :=
  ⟨⟨by norm_num,
    (trailing_stop_monotone (8/100) 100).1 botPass 50 (by norm_num)⟩,
   ⟨by norm_num,
    (trailing_stop_monotone (8/100) 100).2.2.2 (botPass, 90) [110, 120, 130]
      (by norm_num)⟩⟩

/-- C8: every window of length at least 20 passes the minimum-length check,
and the reversal tests on the preceding and most recent 5-point sub-window
rates of change decide the signal ahead of the trend checks: priorRoc below
-0.1 with recentRoc above 0.2 gives REVERSAL_UP, priorRoc above 0.1 with
recentRoc below -0.2 gives REVERSAL_DOWN. -/
theorem detect_momentum_reversal_precedence (ph : List PricePoint)
    (h : 20 ≤ ph.length) :
    (older5roc ph 20 < -(1/10) → (2/10 : Rat) < recent5roc ph 20 →
      detect_momentum ph 20 = .REVERSAL_UP) ∧
    ((1/10 : Rat) < older5roc ph 20 → recent5roc ph 20 < -(2/10) →
      detect_momentum ph 20 = .REVERSAL_DOWN) := by
  have hlen : (lastWindow ph 20).length = 20 := by
    unfold lastWindow
    rw [List.length_map, List.length_drop]
    omega
  constructor
  · intro h1 h2
    unfold detect_momentum
    rw [if_neg (by omega)]
    dsimp only
    rw [if_pos ⟨by rw [hlen]; norm_num, h1, h2⟩]
  · intro h1 h2
    unfold detect_momentum
    rw [if_neg (by omega)]
    dsimp only
    rw [if_neg ?_, if_pos ⟨by rw [hlen]; norm_num, h1, h2⟩]
    rintro ⟨-, hbad, -⟩
    exact absurd (lt_trans h1 hbad) (by norm_num)

theorem detect_momentum_reversal_precedence_witness :
    older5roc w20rev 20 = -(15/100) ∧ recent5roc w20rev 20 = 25/100 ∧
    detect_momentum w20rev 20 = .REVERSAL_UP :=
  ⟨by decide, by decide,
   (detect_momentum_reversal_precedence w20rev (by decide)).1
     (by decide) (by decide)⟩

/-- C1 counterexample: a cycle in which a Position is open (in_position true)
and the profit-target exit rule matches (price 130, target 125), but the
trade-count gate is failing: the loop hits continue before the exit
evaluation, so no Sell intent is emitted and nothing changes; likewise when
the daily-loss gate is failing. -/
theorem gate_failure_blocks_exit_cycle :
    loopPos.in_position = true ∧
    cfgA.max_trades ≤ botGate.trades_today ∧
    loopPos.profit_target ≤ botGate.current_price ∧
    scalping_cycle cfgA 50 botGate loopPos = ((botGate, loopPos), []) ∧
    botLoss.daily_pnl < -(cfgA.max_daily_loss_pct * cfgA.account_balance) ∧
    scalping_cycle cfgA 50 botLoss loopPos = ((botLoss, loopPos), []) := by
  refine ⟨rfl, by decide, by decide, by decide, by decide, by decide⟩

/-- C1 amended: when the trade-count and daily-loss gates pass and a price
exists, a cycle with an open Position runs the in-position branch with no
cooldown check, and an exit-rule match there emits exactly one Sell intent
regardless of the cooldown gate; a failing trade-count gate or a failing
daily-loss gate instead skips the whole cycle body, exit evaluation included,
leaving the state unchanged and emitting nothing. -/
theorem gate_exit_interaction (cfg : Config) (now : Rat) (bs : BotState)
    (ls : LoopState) :
    (ls.in_position = true → bs.trades_today < cfg.max_trades →
      ¬ bs.daily_pnl < -(cfg.max_daily_loss_pct * cfg.account_balance) →
      bs.current_price ≠ 0 →
      scalping_cycle cfg now bs ls =
        in_position_branch cfg now
          (cfg.symbols.getD (ls.symbol_index % cfg.symbols.length) "MES")
          bs.current_price (detect_momentum bs.price_history 20) bs
          { ls with symbol_index := ls.symbol_index + 1 }) ∧
    (∀ (symbol : String) (cp : Rat) (signal : Signal) (r : String),
      check_exit cp (trailedStop bs cp ls) ls.profit_target signal
          ls.current_direction cfg.allow_reversals = some r →
      (in_position_branch cfg now symbol cp signal bs ls).2 =
        [Intent.sell symbol ls.current_strike ls.current_direction]) ∧
    (cfg.max_trades ≤ bs.trades_today →
      scalping_cycle cfg now bs ls = ((bs, ls), [])) ∧
    (bs.daily_pnl < -(cfg.max_daily_loss_pct * cfg.account_balance) →
      scalping_cycle cfg now bs ls = ((bs, ls), [])) := by
  refine ⟨?_, ?_, ?_, ?_⟩
  · intro h1 h2 h3 h4
    unfold scalping_cycle
    rw [if_neg (not_le.mpr h2), if_neg h3, if_neg h4]
    dsimp only
    simp only [h1, if_true]
  · intro symbol cp signal r hexit
    unfold trailedStop at hexit
    unfold in_position_branch
    dsimp only
    cases htr : (update_trailing_stop bs cp ls.entry_price (8/100)).2 with
    | none =>
        rw [htr] at hexit
        dsimp only at hexit
        simp only [htr]
        rw [hexit]
    | some ns =>
        rw [htr] at hexit
        dsimp only at hexit
        simp only [htr]
        by_cases hlt : ls.stop_loss < ns
        · simp only [hlt, if_true] at hexit ⊢
          rw [hexit]
        · simp only [hlt, if_false] at hexit ⊢
          rw [hexit]
  · intro hgate
    unfold scalping_cycle
    rw [if_pos hgate]
  · intro hloss
    by_cases hgate : cfg.max_trades ≤ bs.trades_today
    · unfold scalping_cycle
      rw [if_pos hgate]
    · unfold scalping_cycle
      rw [if_neg hgate, if_pos hloss]

theorem gate_exit_interaction_witness :
    (scalping_cycle cfgA 50 botPass loopPos).2 =
      [Intent.sell "MES" (some 100) (some "CALL")] := by
  have h1 := (gate_exit_interaction cfgA 50 botPass loopPos).1 rfl
    (by decide) (by decide) (by decide)
  have h2 := (gate_exit_interaction cfgA 50 botPass
      { loopPos with symbol_index := loopPos.symbol_index + 1 }).2.1
    (cfgA.symbols.getD (loopPos.symbol_index % cfgA.symbols.length) "MES")
    botPass.current_price (detect_momentum botPass.price_history 20)
    "Profit target" (by decide)
  rw [h1, h2]
  decide

/-- C3 counterexample: with a pending Buy order and the position slot
occupied, a Rejected acknowledgement only rewrites the order record: the loop
state is untouched, in_position stays true, and the order stays in active
tracking with status Rejected, so the Position has not returned to Flat. -/
theorem buy_reject_leaves_position_open :
    (step cfgA (botEntering, loopPos) (Event.status 7 "Rejected" 0 0)).1.2 =
      loopPos ∧
    loopPos.in_position = true ∧
    (step cfgA (botEntering, loopPos) (Event.status 7 "Rejected" 0 0)).1.1 =
      { botEntering with
          active_orders := [(7, { buyRec with status := "Rejected" })] } := by
  refine ⟨rfl, rfl, by decide⟩

/-- C3 amended: a Rejected or Cancelled (any non-Filled) acknowledgement of an
order only rewrites that order record inside active_orders; the loop state,
in_position included, is unchanged, so the Position does not return to Flat
and entry evaluation is not re-enabled. -/
theorem nonfill_status_updates_record_only (cfg : Config) (bs : BotState)
    (ls : LoopState) (oid : Nat) (stat : String) (f p : Rat)
    (h : stat ≠ "Filled") :
    (∃ ao, (step cfg (bs, ls) (Event.status oid stat f p)).1 =
      ({ bs with active_orders := ao }, ls)) ∧
    (step cfg (bs, ls) (Event.status oid stat f p)).1.2.in_position =
      ls.in_position := by
  have hmain : ∃ ao, orderStatus bs oid stat f p =
      { bs with active_orders := ao } := by
    unfold orderStatus
    cases hl : lookupOrder bs.active_orders oid with
    | none => exact ⟨bs.active_orders, rfl⟩
    | some rec0 =>
        dsimp only
        refine ⟨setOrder bs.active_orders oid
          { rec0 with status := stat, filled := f, avgPrice := p }, ?_⟩
        rw [if_neg h]
  obtain ⟨ao, hao⟩ := hmain
  exact ⟨⟨ao, by rw [show (step cfg (bs, ls)
    (Event.status oid stat f p)).1 = (orderStatus bs oid stat f p, ls)
    from rfl, hao]⟩, rfl⟩

theorem nonfill_status_updates_record_only_witness :
    ("Rejected" ≠ "Filled") ∧
    ((∃ ao, (step cfgA (botEntering, loopPos)
        (Event.status 7 "Rejected" 0 0)).1 =
      ({ botEntering with active_orders := ao }, loopPos)) ∧
     (step cfgA (botEntering, loopPos)
        (Event.status 7 "Rejected" 0 0)).1.2.in_position =
       loopPos.in_position) :=
  ⟨by decide, nonfill_status_updates_record_only cfgA botEntering loopPos 7
    "Rejected" 0 0 (by decide)⟩

/-- C5 counterexample: order 7 first reaches Rejected, yet a later Filled
event for the same order is still processed as a fill: the record lands in
filled_orders with status Filled and the Buy fill handler runs, recording the
entry price 7 - the record is reopened. -/
theorem reject_then_fill_processed :
    (orderStatus (orderStatus botEntering 7 "Rejected" 0 0) 7
        "Filled" 1 7).filled_orders =
      [(7, { buyRec with status := "Filled", filled := 1, avgPrice := 7 })] ∧
    (orderStatus (orderStatus botEntering 7 "Rejected" 0 0) 7
        "Filled" 1 7).entry_price = 7 := by
  refine ⟨by decide, by decide⟩

/-- C5 amended: Filled is the only absorbing terminal status: a Filled event
removes the record from active tracking and every later event for that order
id is ignored; after Cancelled or Rejected the record stays in active_orders
with the terminal status written in, and a later Filled event is still
processed as a fill, moving the record to filled_orders. -/
theorem order_status_terminality (bs : BotState) (oid : Nat)
    (f p f2 p2 : Rat) (stat2 : String) :
    lookupOrder (orderStatus bs oid "Filled" f p).active_orders oid = none ∧
    orderStatus (orderStatus bs oid "Filled" f p) oid stat2 f2 p2 =
      orderStatus bs oid "Filled" f p ∧
    (∀ (rec0 : OrderRec) (stat : String),
      stat = "Rejected" ∨ stat = "Cancelled" →
      lookupOrder bs.active_orders oid = some rec0 →
      lookupOrder (orderStatus bs oid stat f p).active_orders oid =
        some { rec0 with status := stat, filled := f, avgPrice := p } ∧
      lookupOrder (orderStatus (orderStatus bs oid stat f p) oid "Filled"
          f2 p2).filled_orders oid =
        some { rec0 with
                 status := "Filled", filled := f2, avgPrice := p2 }) := by
  have hA : lookupOrder (orderStatus bs oid "Filled" f p).active_orders oid =
      none := by
    unfold orderStatus
    cases hl : lookupOrder bs.active_orders oid with
    | none => exact hl
    | some rec0 =>
        dsimp only
        rw [if_pos rfl, on_order_filled_active_orders]
        exact lookupOrder_removeOrder_self ..
  have hIgnore : ∀ s : BotState,
      lookupOrder s.active_orders oid = none →
      orderStatus s oid stat2 f2 p2 = s := by
    intro s hs
    unfold orderStatus
    rw [hs]
  refine ⟨hA, hIgnore _ hA, ?_⟩
  intro rec0 stat hstat hl
  have hne : stat ≠ "Filled" := by
    rcases hstat with rfl | rfl <;> decide
  have hfirst : orderStatus bs oid stat f p =
      { bs with
          active_orders := (setOrder bs.active_orders oid
            { rec0 with status := stat, filled := f, avgPrice := p }) } := by
    unfold orderStatus
    rw [hl]
    dsimp only
    rw [if_neg hne]
  constructor
  · rw [hfirst]
    exact lookupOrder_setOrder_self ..
  · rw [hfirst]
    unfold orderStatus
    rw [show (BotState.active_orders { bs with
        active_orders := (setOrder bs.active_orders oid
          { rec0 with status := stat, filled := f, avgPrice := p }) }) =
      (setOrder bs.active_orders oid
        { rec0 with status := stat, filled := f, avgPrice := p }) from rfl]
    rw [lookupOrder_setOrder_self]
    dsimp only
    rw [if_pos rfl, on_order_filled_filled_orders]
    dsimp only
    exact lookupOrder_setOrder_self ..

/-- C9: a Filled acknowledgement of a tracked Sell order while an entry price
is recorded settles realized PnL (fillPrice - entryPrice) * quantity * 5 into
totalPnl and dailyPnl, increments tradesToday by one, increments wins exactly
when the PnL is positive and losses otherwise, and clears the entry price;
and no other interleaved event - tick, cycle, or any other order
acknowledgement - changes these five session counters. -/
theorem sell_fill_settlement (cfg : Config) :
    (∀ (bs : BotState) (oid : Nat) (rec0 : OrderRec) (f p : Rat),
      lookupOrder bs.active_orders oid = some rec0 →
      rec0.action = "SELL" → 0 < bs.entry_price →
      (orderStatus bs oid "Filled" f p).total_pnl =
        bs.total_pnl + (p - bs.entry_price) * (rec0.quantity : Rat) * 5 ∧
      (orderStatus bs oid "Filled" f p).daily_pnl =
        bs.daily_pnl + (p - bs.entry_price) * (rec0.quantity : Rat) * 5 ∧
      (orderStatus bs oid "Filled" f p).trades_today = bs.trades_today + 1 ∧
      (0 < (p - bs.entry_price) * (rec0.quantity : Rat) * 5 →
        (orderStatus bs oid "Filled" f p).wins = bs.wins + 1 ∧
        (orderStatus bs oid "Filled" f p).losses = bs.losses) ∧
      (¬ 0 < (p - bs.entry_price) * (rec0.quantity : Rat) * 5 →
        (orderStatus bs oid "Filled" f p).losses = bs.losses + 1 ∧
        (orderStatus bs oid "Filled" f p).wins = bs.wins) ∧
      (orderStatus bs oid "Filled" f p).entry_price = 0) ∧
    (∀ (st : BotState × LoopState) (e : Event),
      sessionStats (step cfg st e).1.1 ≠ sessionStats st.1 →
      ∃ (oid : Nat) (f p : Rat) (rec0 : OrderRec),
        e = Event.status oid "Filled" f p ∧
        lookupOrder st.1.active_orders oid = some rec0 ∧
        rec0.action = "SELL" ∧ 0 < st.1.entry_price) := by
  constructor
  · intro bs oid rec0 f p hl hsell hent
    unfold orderStatus
    rw [hl]
    dsimp only
    rw [if_pos rfl]
    unfold on_order_filled
    dsimp only
    rw [lookupOrder_setOrder_self]
    dsimp only
    rw [hsell]
    rw [if_neg (by decide : ¬ ("SELL" : String) = "BUY"), if_pos rfl,
      if_pos hent]
    by_cases hp : 0 < (p - bs.entry_price) * (rec0.quantity : Rat) * 5
    · rw [if_pos hp]
      refine ⟨rfl, rfl, rfl, fun _ => ⟨rfl, rfl⟩, fun hnp => absurd hp hnp,
        rfl⟩
    · rw [if_neg hp]
      refine ⟨rfl, rfl, rfl, fun hp2 => absurd hp2 hp,
        fun _ => ⟨rfl, rfl⟩, rfl⟩
  · intro st e hne
    match e with
    | Event.tick now t p =>
        exact absurd (sessionStats_tickPrice st.1 now t p) hne
    | Event.cycle now =>
        exact absurd (sessionStats_scalping_cycle cfg now st.1 st.2) hne
    | Event.status oid stat f p =>
        by_cases hstat : stat = "Filled"
        · subst hstat
          cases hl : lookupOrder st.1.active_orders oid with
          | none =>
              refine absurd (sessionStats_orderStatus_of_not_sell_fill
                st.1 oid "Filled" f p ?_) hne
              intro rec0 hl2 _ _ _
              rw [hl] at hl2
              exact Option.noConfusion hl2
          | some rec0 =>
              by_cases hsell : rec0.action = "SELL"
              · by_cases hent : 0 < st.1.entry_price
                · exact ⟨oid, f, p, rec0, rfl, hl, hsell, hent⟩
                · refine absurd (sessionStats_orderStatus_of_not_sell_fill
                    st.1 oid "Filled" f p ?_) hne
                  intro rec1 hl2 _ _ hent2
                  exact absurd hent2 hent
              · refine absurd (sessionStats_orderStatus_of_not_sell_fill
                  st.1 oid "Filled" f p ?_) hne
                intro rec1 hl2 _ hsell2 _
                rw [hl] at hl2
                cases hl2
                exact absurd hsell2 hsell
        · refine absurd (sessionStats_orderStatus_of_not_sell_fill
            st.1 oid stat f p ?_) hne
          intro rec1 _ hstat2 _ _
          exact absurd hstat2 hstat

theorem sell_fill_settlement_witness :
    (0 : Rat) < botSell.entry_price ∧
    (orderStatus botSell 9 "Filled" 1 130).total_pnl =
      botSell.total_pnl + 150 ∧
    (orderStatus botSell 9 "Filled" 1 130).trades_today = 7 ∧
    (orderStatus botSell 9 "Filled" 1 130).wins = 3 ∧
    (orderStatus botSell 9 "Filled" 1 130).losses = 3 := by
  have h := (sell_fill_settlement cfgA).1 botSell 9 sellRec 1 130 (by decide)
    (by decide) (by decide)
  have hp : (0 : Rat) < (130 - botSell.entry_price) *
      (sellRec.quantity : Rat) * 5 := by decide
  refine ⟨by decide, ?_, ?_, ?_, ?_⟩
  · rw [h.1]; decide
  · rw [h.2.2.1]; decide
  · rw [(h.2.2.2.1 hp).1]; decide
  · rw [(h.2.2.2.1 hp).2]; decide

theorem order_status_terminality_witness :
    lookupOrder (orderStatus botEntering 7 "Filled" 1 7).active_orders 7 =
      none ∧
    lookupOrder (orderStatus (orderStatus botEntering 7 "Rejected" 0 0) 7
        "Filled" 1 7).filled_orders 7 =
      some { buyRec with status := "Filled", filled := 1, avgPrice := 7 } :=
  ⟨(order_status_terminality botEntering 7 1 7 1 7 "X").1,
   ((order_status_terminality botEntering 7 0 0 1 7 "X").2.2 buyRec "Rejected"
      (Or.inl rfl) (by decide)).2⟩

end Scalper
